import Mathlib

/-!
Shallow embedding of the cherry 2D raster canvas engine (`src/cherry.hpp`,
third revision of the header: the `cherry` namespace with packed `uint32_t`
RGBA pixels, a `Canvas` class with `#ifdef CHERRY_CHECK_BOUNDS`-toggled
bounds checking, Bresenham line drawing, flat-triangle filling and the
`transform::Copy` / `transform::Rotate` resampling routines).

Machine integers are modelled as `Nat` (for the unsigned pixel lanes and
`uint32_t`/`uint64_t` arithmetic, with explicit `% 2 ^ 32` where the C++
truncates to `uint32_t`) and as `Int` (for `int` coordinates, with
`Int.tdiv` for C++'s truncating signed division).  C++ integer division by
zero is undefined behaviour; functions that can reach it return `Option` /
`Except` with a dedicated failure value.  A canvas's backing buffer is an
ambient pixel memory `Nat → Nat` together with a base pointer offset,
mirroring the `Data` pointer + `Stride` layout of the source.
-/

namespace Cherry

/-! ### Channel layout constants (`cherry.hpp` lines 1222-1236) -/

def SHIFT_RED : Nat := 0
def SHIFT_GREEN : Nat := 8
def SHIFT_BLUE : Nat := 16
def SHIFT_ALPHA : Nat := 24

def MASK_RED_BLUE : Nat := (0xFF <<< SHIFT_RED) ||| (0xFF <<< SHIFT_BLUE)
def MASK_GREEN : Nat := 0xFF <<< SHIFT_GREEN

/-- `MASK_ALPHA` is `0xFF << 24` computed in (32-bit) `int`, whose bit
pattern is `0xFF000000` with the sign bit set; when the third revision's
`FastAlphaBlend` mixes it into `uint64_t` expressions the usual arithmetic
conversions sign-extend it to `0xFFFFFFFFFF000000`.  We keep the 64-bit
pattern, as the source's `uint64_t` operations see it. -/
def MASK_ALPHA64 : Nat := 0xFFFFFFFFFF000000

/-- `CombineRGBA(red, green, blue, alpha)` (lines 1240-1250):
`((red & 0xFF) << SHIFT_RED) | ((green & 0xFF) << SHIFT_GREEN) | ...`. -/
def CombineRGBA (red green blue alpha : Nat) : Nat :=
  ((red &&& 0xFF) <<< SHIFT_RED)
    ||| ((green &&& 0xFF) <<< SHIFT_GREEN)
    ||| ((blue &&& 0xFF) <<< SHIFT_BLUE)
    ||| ((alpha &&& 0xFF) <<< SHIFT_ALPHA)

/-- `DeconstructRGBA(pixel)` (lines 1253-1262): the four 8-bit lanes
`(pixel >> SHIFT_c) & 0xFF` in the order red, green, blue, alpha. -/
def DeconstructRGBA (pixel : Nat) : Nat × Nat × Nat × Nat :=
  ((pixel >>> SHIFT_RED) &&& 0xFF,
   (pixel >>> SHIFT_GREEN) &&& 0xFF,
   (pixel >>> SHIFT_BLUE) &&& 0xFF,
   (pixel >>> SHIFT_ALPHA) &&& 0xFF)

/-- The alpha lane of a packed 32-bit pixel. -/
def alphaOf (pixel : Nat) : Nat := (pixel >>> SHIFT_ALPHA) &&& 0xFF

/-- `AlphaBlend(foreground, background)` (lines 1265-1278).  The source
computes `a = fg_a + bg_a * (255 - fg_a) / 255` and then divides each
colour lane by `a` unconditionally; when `a = 0` (both alphas zero) the
C++ performs an integer division by zero, which is undefined behaviour —
modelled as `none`. -/
def AlphaBlend (foreground background : Nat) : Option Nat :=
  let (fg_r, fg_g, fg_b, fg_a) := DeconstructRGBA foreground
  let (bg_r, bg_g, bg_b, bg_a) := DeconstructRGBA background
  let a := fg_a + bg_a * (255 - fg_a) / 255
  if a = 0 then
    none
  else
    let r := (fg_r * fg_a + bg_r * bg_a * (255 - fg_a) / 255) / a
    let g := (fg_g * fg_a + bg_g * bg_a * (255 - fg_a) / 255) / a
    let b := (fg_b * fg_a + bg_b * bg_a * (255 - fg_a) / 255) / a
    some (CombineRGBA r g b a)

/-- `FastAlphaBlend(foreground, background)` (lines 1281-1299), operating
on `uint64_t` arguments and truncating the result to `uint32_t`.  The
early return hands back `background` truncated to 32 bits; otherwise the
red+blue lanes and the green lane are mixed with weights `fg_a + 1` and
`256 - fg_a` and the alpha lane is forced by `~0 & MASK_ALPHA`. -/
def FastAlphaBlend (foreground background : Nat) : Nat :=
  let fg_a := (foreground &&& MASK_ALPHA64) >>> SHIFT_ALPHA
  if fg_a = 0 then
    background % 2 ^ 32
  else
    let alpha := fg_a + 1
    let inv_alpha := 256 - fg_a
    let rb :=
      (alpha * (foreground &&& MASK_RED_BLUE)
        + inv_alpha * (background &&& MASK_RED_BLUE)) >>> 8
    let g :=
      (alpha * (foreground &&& MASK_GREEN)
        + inv_alpha * (background &&& MASK_GREEN)) >>> 8
    ((rb &&& MASK_RED_BLUE) ||| (g &&& MASK_GREEN) ||| MASK_ALPHA64) % 2 ^ 32

/-! ### Arithmetic normal forms for the packed-pixel operations -/

theorem and_255_eq_mod (x : Nat) : x &&& 255 = x % 256 := by
  have h : (255 : Nat) = 2 ^ 8 - 1 := by norm_num
  rw [h, Nat.and_pow_two_sub_one_eq_mod]

/-- Bitwise or of values with disjoint binary ranges is addition. -/
theorem lor_eq_add_of_lt (x y k : Nat) (hx : x < 2 ^ k) :
    x ||| 2 ^ k * y = x + 2 ^ k * y := by
  rw [Nat.lor_comm, ← Nat.mul_add_lt_is_or hx y, Nat.add_comm]

theorem CombineRGBA_eq_arith (r g b a : Nat) :
    CombineRGBA r g b a =
      r % 256 + 256 * (g % 256) + 65536 * (b % 256) + 16777216 * (a % 256) := by
  have h256 : ∀ x : Nat, x % 256 < 256 := fun x => Nat.mod_lt _ (by norm_num)
  unfold CombineRGBA SHIFT_RED SHIFT_GREEN SHIFT_BLUE SHIFT_ALPHA
  rw [and_255_eq_mod, and_255_eq_mod, and_255_eq_mod, and_255_eq_mod]
  rw [Nat.shiftLeft_eq, Nat.shiftLeft_eq, Nat.shiftLeft_eq, Nat.shiftLeft_eq]
  have e0 : r % 256 * 2 ^ 0 = r % 256 := by norm_num
  have e8 : g % 256 * 2 ^ 8 = 2 ^ 8 * (g % 256) := by ring
  have e16 : b % 256 * 2 ^ 16 = 2 ^ 16 * (b % 256) := by ring
  have e24 : a % 256 * 2 ^ 24 = 2 ^ 24 * (a % 256) := by ring
  rw [e0, e8, e16, e24]
  rw [lor_eq_add_of_lt _ _ 8 (h256 r)]
  rw [lor_eq_add_of_lt _ _ 16 (by have := h256 r; have := h256 g; omega)]
  rw [lor_eq_add_of_lt _ _ 24
    (by have := h256 r; have := h256 g; have := h256 b; omega)]
  norm_num

theorem CombineRGBA_lt (r g b a : Nat) : CombineRGBA r g b a < 2 ^ 32 := by
  rw [CombineRGBA_eq_arith]
  have h256 : ∀ x : Nat, x % 256 < 256 := fun x => Nat.mod_lt _ (by norm_num)
  have := h256 r; have := h256 g; have := h256 b; have := h256 a
  omega

/-- Extracting the four lanes of `CombineRGBA` recovers the channels
reduced mod 256. -/
theorem DeconstructRGBA_CombineRGBA (r g b a : Nat) :
    DeconstructRGBA (CombineRGBA r g b a) = (r % 256, g % 256, b % 256, a % 256) := by
  have h256 : ∀ x : Nat, x % 256 < 256 := fun x => Nat.mod_lt _ (by norm_num)
  have hr := h256 r; have hg := h256 g; have hb := h256 b; have ha := h256 a
  unfold DeconstructRGBA SHIFT_RED SHIFT_GREEN SHIFT_BLUE SHIFT_ALPHA
  rw [CombineRGBA_eq_arith]
  rw [Nat.shiftRight_eq_div_pow, Nat.shiftRight_eq_div_pow,
      Nat.shiftRight_eq_div_pow, Nat.shiftRight_eq_div_pow]
  rw [and_255_eq_mod, and_255_eq_mod, and_255_eq_mod, and_255_eq_mod]
  norm_num
  omega

/-- Reassembling the deconstructed lanes of a 32-bit pixel gives the pixel
back. -/
theorem CombineRGBA_DeconstructRGBA (p : Nat) (hp : p < 2 ^ 32) :
    CombineRGBA ((p >>> SHIFT_RED) &&& 0xFF) ((p >>> SHIFT_GREEN) &&& 0xFF)
      ((p >>> SHIFT_BLUE) &&& 0xFF) ((p >>> SHIFT_ALPHA) &&& 0xFF) = p := by
  unfold SHIFT_RED SHIFT_GREEN SHIFT_BLUE SHIFT_ALPHA
  rw [CombineRGBA_eq_arith]
  rw [Nat.shiftRight_eq_div_pow, Nat.shiftRight_eq_div_pow,
      Nat.shiftRight_eq_div_pow, Nat.shiftRight_eq_div_pow]
  rw [and_255_eq_mod, and_255_eq_mod, and_255_eq_mod, and_255_eq_mod]
  norm_num
  omega

theorem DeconstructRGBA_eq_arith (p : Nat) :
    DeconstructRGBA p = (p % 256, p / 256 % 256, p / 65536 % 256, p / 16777216 % 256) := by
  unfold DeconstructRGBA SHIFT_RED SHIFT_GREEN SHIFT_BLUE SHIFT_ALPHA
  rw [Nat.shiftRight_eq_div_pow, Nat.shiftRight_eq_div_pow,
      Nat.shiftRight_eq_div_pow, Nat.shiftRight_eq_div_pow]
  rw [and_255_eq_mod, and_255_eq_mod, and_255_eq_mod, and_255_eq_mod]
  norm_num

theorem alphaOf_eq_arith (p : Nat) : alphaOf p = p / 16777216 % 256 := by
  unfold alphaOf SHIFT_ALPHA
  rw [Nat.shiftRight_eq_div_pow, and_255_eq_mod]

/-- For genuine 32-bit pixels, the 64-bit alpha extraction of
`FastAlphaBlend` agrees with the plain alpha lane. -/
theorem fast_alpha_extract (x : Nat) (hx : x < 2 ^ 32) :
    (x &&& MASK_ALPHA64) >>> SHIFT_ALPHA = alphaOf x := by
  unfold MASK_ALPHA64 alphaOf SHIFT_ALPHA
  apply Nat.eq_of_testBit_eq
  intro i
  simp only [Nat.testBit_shiftRight, Nat.testBit_and]
  by_cases h8 : i < 8
  · have hm : Nat.testBit 0xFFFFFFFFFF000000 (24 + i) = true := by
      interval_cases i <;> decide
    have h255 : Nat.testBit 255 i = true := by
      interval_cases i <;> decide
    rw [hm, h255]
  · have hhi : Nat.testBit x (24 + i) = false := by
      apply Nat.testBit_lt_two_pow
      calc x < 2 ^ 32 := hx
        _ ≤ 2 ^ (24 + i) := Nat.pow_le_pow_right (by norm_num) (by omega)
    have h255 : Nat.testBit 255 i = false := by
      apply Nat.testBit_lt_two_pow
      calc (255 : Nat) < 2 ^ 8 := by norm_num
        _ ≤ 2 ^ i := Nat.pow_le_pow_right (by norm_num) (by omega)
    rw [hhi, h255]
    simp

/-- C1 (code_bug evidence): at the claimed-impossible input — both pixels
fully transparent — `AlphaBlend` reaches the division with `outA = 0`.
The source (lines 1272-1275) has no short-circuit: `a = 0` and the three
colour lanes divide by `a`, which is C++ undefined behaviour, modelled as
`none`.  The spec's promised fully-transparent fallback does not exist. -/
theorem C1_alpha_blend_divides_by_zero : AlphaBlend 0 0 = none := by decide

/-- C3 counterexample: `FastAlphaBlend` does *not* force output alpha to
255 for every input.  With `fg.alpha = 0` it returns the background
unchanged (source line 1286-1288), here with alpha `0x80 ≠ 255`. -/
theorem C3_fast_alpha_not_always_opaque :
    alphaOf (FastAlphaBlend 0x00FF0000 0x80123456) ≠ 255 := by decide

/-- C3 (amended): for 32-bit pixels, `FastAlphaBlend` forces the output
alpha lane to 255 whenever the foreground alpha is nonzero; when the
foreground alpha is zero it returns the background pixel unchanged (so the
output alpha is the background's alpha, not necessarily 255). -/
theorem C3_fast_alpha_composite_alpha (fg bg : Nat)
    (hfg : fg < 2 ^ 32) (hbg : bg < 2 ^ 32) :
    (alphaOf fg ≠ 0 → alphaOf (FastAlphaBlend fg bg) = 255) ∧
      (alphaOf fg = 0 → FastAlphaBlend fg bg = bg) := by
  have hext := fast_alpha_extract fg hfg
  have hMlt : MASK_RED_BLUE < 2 ^ 24 := by decide
  have hGlt : MASK_GREEN < 2 ^ 24 := by decide
  have key : ∀ X : Nat, X < 2 ^ 24 → alphaOf ((X ||| MASK_ALPHA64) % 2 ^ 32) = 255 := by
    intro X hX
    have hMA : MASK_ALPHA64 = 2 ^ 24 * 0xFFFFFFFFFF := by
      unfold MASK_ALPHA64; norm_num
    rw [hMA, lor_eq_add_of_lt _ _ 24 hX, alphaOf_eq_arith]
    omega
  constructor
  · intro hne
    simp only [FastAlphaBlend, hext, if_neg hne]
    exact key _ (Nat.or_lt_two_pow
      (lt_of_le_of_lt Nat.and_le_right hMlt)
      (lt_of_le_of_lt Nat.and_le_right hGlt))
  · intro hz
    simp only [FastAlphaBlend, hext, if_pos hz]
    omega

/-- C4 counterexample: the `fg.alpha = 0 ⇒ AlphaComposite(fg,bg) = bg`
identity law fails when the background is also fully transparent: the code
divides by zero (`outA = 0`) instead of returning `bg`. -/
theorem C4_alpha_zero_law_fails :
    AlphaBlend 0 0x00345678 ≠ some 0x00345678 := by decide

/-- C4 (amended): the identity laws of the over operator under truncating
integer arithmetic, as the code actually satisfies them: for 32-bit
pixels, `fg.alpha = 255` gives `fg` back unconditionally, and
`fg.alpha = 0` gives `bg` back *provided* `bg.alpha ≠ 0` (when both
alphas are zero the unguarded division by `outA = 0` yields no result). -/
theorem C4_alpha_composite_identity (fg bg : Nat)
    (hfg : fg < 2 ^ 32) (hbg : bg < 2 ^ 32) :
    (alphaOf fg = 255 → AlphaBlend fg bg = some fg) ∧
      (alphaOf fg = 0 → alphaOf bg ≠ 0 → AlphaBlend fg bg = some bg) := by
  rw [alphaOf_eq_arith, alphaOf_eq_arith]
  constructor
  · intro ha
    unfold AlphaBlend
    rw [DeconstructRGBA_eq_arith, DeconstructRGBA_eq_arith]
    simp only [ha]
    norm_num
    rw [CombineRGBA_eq_arith]
    omega
  · intro ha hb
    unfold AlphaBlend
    rw [DeconstructRGBA_eq_arith, DeconstructRGBA_eq_arith]
    simp only [ha]
    norm_num
    refine ⟨hb, ?_⟩
    rw [Nat.mul_div_cancel _ (by omega), Nat.mul_div_cancel _ (by omega),
        Nat.mul_div_cancel _ (by omega)]
    rw [CombineRGBA_eq_arith]
    omega

/-- Witness for C3 at a concrete input. -/
theorem C3_fast_alpha_composite_alpha_witness :
    alphaOf (FastAlphaBlend 0x01020304 0x05060708) = 255 :=
  (C3_fast_alpha_composite_alpha 0x01020304 0x05060708
    (by norm_num) (by norm_num)).1 (by decide)

/-- Witness for C4 at a concrete input. -/
theorem C4_alpha_composite_identity_witness :
    AlphaBlend 0xFF102030 0x40506070 = some 0xFF102030 :=
  (C4_alpha_composite_identity 0xFF102030 0x40506070
    (by norm_num) (by norm_num)).1 (by decide)

/-! ### Canvas (`cherry.hpp` lines 1302-1521)

A `Canvas` is a non-owning view: `Data` (modelled as a base pixel offset
`ptr` into an ambient pixel memory `mem : Nat → Nat`), `Width`, `Height`,
`Stride` (in pixels) and the active blend mode.  The
`CHERRY_CHECK_BOUNDS` compile-time toggle is the `strict : Bool`
parameter: both configurations address the buffer through the single
shared formula `addr = ptr + Stride * y + x`.  Exceptions
(`std::out_of_range`) and the division-by-zero UB inside `AlphaBlend`
are the two failure modes. -/

inductive PixelBlendMode where
  | OVERWRITE
  | ALPHA_COMPOSITING
  | FAST_ALPHA_COMPOSITING
deriving DecidableEq, Repr

inductive Failure where
  | outOfBounds
  | divByZero
deriving DecidableEq, Repr

structure Canvas where
  mem : Nat → Nat
  ptr : Int
  Width : Int
  Height : Int
  Stride : Int
  blend_mode : PixelBlendMode

/-- `Empty(not width or not height)` (line 1339). -/
def Canvas.Empty (c : Canvas) : Bool := c.Width == 0 || c.Height == 0

/-- The shared indexing arithmetic `Data[Stride * y + x]` (lines 1430,
1442), used identically by both bounds-checking configurations. -/
def Canvas.addr (c : Canvas) (x y : Int) : Int := c.ptr + c.Stride * y + x

def Canvas.ReadPix (c : Canvas) (x y : Int) : Nat := c.mem (c.addr x y).toNat

def Canvas.WritePix (c : Canvas) (x y : Int) (p : Nat) : Canvas :=
  { c with mem := Function.update c.mem (c.addr x y).toNat p }

/-- `IsWithinBounds` (lines 1457-1462). -/
def Canvas.IsWithinBounds (c : Canvas) (x y : Int) : Bool :=
  x ≥ 0 && y ≥ 0 && x < c.Width && y < c.Height

/-- `CheckBounds` (lines 1466-1493): in the strict configuration it
throws `std::out_of_range` outside the extent; in the trusting
configuration it is a no-op. -/
def Canvas.CheckBounds (strict : Bool) (c : Canvas) (x y : Int) :
    Except Failure Unit :=
  if strict && !(c.IsWithinBounds x y) then .error .outOfBounds else .ok ()

/-- The constructor checks (lines 1327-1353), active only under
`CHERRY_CHECK_BOUNDS`; all of them throw `std::out_of_range`. -/
def MkCanvas (strict : Bool) (mem : Nat → Nat) (ptr width height stride : Int)
    (mode : PixelBlendMode) : Except Failure Canvas :=
  if strict && (width < 0 || height < 0 || stride < 0 || stride < width) then
    .error .outOfBounds
  else
    .ok ⟨mem, ptr, width, height, stride, mode⟩

/-- `Pixel` (lines 1436-1443). -/
def Canvas.Pixel (strict : Bool) (c : Canvas) (x y : Int) : Except Failure Nat := do
  let _ ← c.CheckBounds strict x y
  pure (c.ReadPix x y)

/-- `OverwritePixel` (lines 1424-1433). -/
def Canvas.OverwritePixel (strict : Bool) (c : Canvas) (x y : Int) (p : Nat) :
    Except Failure Canvas := do
  let _ ← c.CheckBounds strict x y
  pure (c.WritePix x y p)

/-- `BlendPixel` (lines 1412-1421) dispatching through `BlendPixelFn` to
`BlendOverwrite` / `BlendAlpha` / `BlendFastAlpha` (lines 1496-1520). -/
def Canvas.BlendPixel (strict : Bool) (c : Canvas) (x y : Int) (p : Nat) :
    Except Failure Canvas := do
  let _ ← c.CheckBounds strict x y
  match c.blend_mode with
  | .OVERWRITE => c.OverwritePixel strict x y p
  | .ALPHA_COMPOSITING => do
      let bg ← c.Pixel strict x y
      match AlphaBlend p bg with
      | none => .error .divByZero
      | some q => c.OverwritePixel strict x y q
  | .FAST_ALPHA_COMPOSITING => do
      let bg ← c.Pixel strict x y
      c.OverwritePixel strict x y (FastAlphaBlend p bg)

/-- `SetBlendMode` (lines 1372-1388): records the mode (the function
pointer dispatch is the `match` in `BlendPixel`). -/
def Canvas.SetBlendMode (c : Canvas) (mode : PixelBlendMode) : Canvas :=
  { c with blend_mode := mode }

/-- `SortTopLeft` (lines 1207-1219). -/
def SortTopLeft (x0 y0 x1 y1 : Int) : Int × Int × Int × Int :=
  let (x0, x1) := if x1 < x0 then (x1, x0) else (x0, x1)
  let (y0, y1) := if y1 < y0 then (y1, y0) else (y0, y1)
  (x0, y0, x1, y1)

/-- `SubCanvas` (lines 1391-1409): sort the corners, bounds-check the
top-left and the inclusive bottom-right, then construct the view with the
offset base pointer `Data + Stride * y0 + x0` and the parent's stride. -/
def Canvas.SubCanvas (strict : Bool) (c : Canvas) (x0 y0 x1 y1 : Int) :
    Except Failure Canvas := do
  let (x0, y0, x1, y1) := SortTopLeft x0 y0 x1 y1
  let _ ← c.CheckBounds strict x0 y0
  let _ ← c.CheckBounds strict (x1 - 1) (y1 - 1)
  MkCanvas strict c.mem (c.ptr + c.Stride * y0 + x0) (x1 - x0) (y1 - y0)
    c.Stride c.blend_mode

/-- The integer range `[lo, hi)` of a C++ `for (v = lo; v < hi; v += 1)`. -/
def intRange (lo hi : Int) : List Int :=
  (List.range (hi - lo).toNat).map (fun (i : Nat) => lo + (i : Int))

/-- `Fill` (lines 1446-1454). -/
def Canvas.Fill (strict : Bool) (c : Canvas) (color : Nat) :
    Except Failure Canvas :=
  (intRange 0 c.Height).foldlM
    (fun acc y =>
      (intRange 0 c.Width).foldlM (fun acc x => acc.BlendPixel strict x y color) acc)
    c

/-- The canvas invariant established by the strict constructor, together
with the base pointer pointing into the ambient memory. -/
def Canvas.Valid (c : Canvas) : Prop :=
  0 ≤ c.ptr ∧ 0 ≤ c.Width ∧ 0 ≤ c.Height ∧ c.Width ≤ c.Stride

/-! ### C2: strict and trusting configurations agree in bounds -/

theorem IsWithinBounds_iff (c : Canvas) (x y : Int) :
    c.IsWithinBounds x y = true ↔
      0 ≤ x ∧ 0 ≤ y ∧ x < c.Width ∧ y < c.Height := by
  simp [Canvas.IsWithinBounds]
  omega

theorem CheckBounds_ok_of_within (c : Canvas) (x y : Int)
    (h : c.IsWithinBounds x y = true) (strict : Bool) :
    c.CheckBounds strict x y = .ok () := by
  simp [Canvas.CheckBounds, h]

/-- C2: on every in-bounds coordinate the strict (bounds-checked) and the
trusting (unchecked) configurations of `Pixel`, `OverwritePixel` and
`BlendPixel` return identical results; both go through the shared
indexing arithmetic `Canvas.addr = ptr + Stride * y + x`. -/
theorem C2_strict_trusting_agree (c : Canvas) (x y : Int) (p : Nat)
    (h : c.IsWithinBounds x y = true) :
    c.Pixel true x y = c.Pixel false x y ∧
      c.OverwritePixel true x y p = c.OverwritePixel false x y p ∧
      c.BlendPixel true x y p = c.BlendPixel false x y p := by
  have hcb : ∀ s, c.CheckBounds s x y = .ok () :=
    CheckBounds_ok_of_within c x y h
  refine ⟨?_, ?_, ?_⟩
  · simp [Canvas.Pixel, hcb]
  · simp [Canvas.OverwritePixel, hcb]
  · simp only [Canvas.BlendPixel, hcb]
    cases c.blend_mode <;>
      simp [Canvas.OverwritePixel, Canvas.Pixel, hcb]

/-- A concrete 4×4 canvas over a zeroed buffer. -/
def sampleCanvas4 : Canvas :=
  ⟨fun _ => 0, 0, 4, 4, 4, PixelBlendMode.ALPHA_COMPOSITING⟩

/-- Witness for C2 at a concrete in-bounds input. -/
theorem C2_strict_trusting_agree_witness :
    sampleCanvas4.Pixel true 1 2 = sampleCanvas4.Pixel false 1 2 ∧
      sampleCanvas4.OverwritePixel true 1 2 0xFF102030
          = sampleCanvas4.OverwritePixel false 1 2 0xFF102030 ∧
      sampleCanvas4.BlendPixel true 1 2 0xFF102030
          = sampleCanvas4.BlendPixel false 1 2 0xFF102030 :=
  C2_strict_trusting_agree sampleCanvas4 1 2 0xFF102030 (by decide)

/-! ### C8: SubCanvas corner sorting and OutOfBounds behaviour -/

theorem SortTopLeft_eq (x0 y0 x1 y1 : Int) :
    SortTopLeft x0 y0 x1 y1 = (min x0 x1, min y0 y1, max x0 x1, max y0 y1) := by
  unfold SortTopLeft
  split_ifs <;> simp_all <;> omega

theorem ok_bind {α β : Type} (a : α) (f : α → Except Failure β) :
    (Except.ok a >>= f) = f a := rfl

theorem error_bind {α β : Type} (e : Failure) (f : α → Except Failure β) :
    ((Except.error e : Except Failure α) >>= f) = .error e := rfl

theorem CheckBounds_error_of_not_within (c : Canvas) (x y : Int)
    (h : ¬c.IsWithinBounds x y = true) :
    c.CheckBounds true x y = .error .outOfBounds := by
  simp [Canvas.CheckBounds, h]

/-- The sorted normal form of `SubCanvas`. -/
theorem SubCanvas_eq (strict : Bool) (c : Canvas) (x0 y0 x1 y1 : Int) :
    c.SubCanvas strict x0 y0 x1 y1 =
      (c.CheckBounds strict (min x0 x1) (min y0 y1) >>= fun _ =>
        c.CheckBounds strict (max x0 x1 - 1) (max y0 y1 - 1) >>= fun _ =>
          MkCanvas strict c.mem (c.ptr + c.Stride * min y0 y1 + min x0 x1)
            (max x0 x1 - min x0 x1) (max y0 y1 - min y0 y1) c.Stride c.blend_mode) := by
  unfold Canvas.SubCanvas
  rw [SortTopLeft_eq]

/-- C8 counterexample: on a 4×4 canvas, `SubCanvas(0,0,0,0)` names the
empty rectangle `[0,0)×[0,0)`, which does not exceed the parent's
extent, yet the strict configuration raises OutOfBounds (the second
bounds check probes the sorted corner `(x1-1, y1-1) = (-1,-1)`). -/
theorem C8_subcanvas_empty_rect_raises :
    sampleCanvas4.SubCanvas true 0 0 0 0 = .error .outOfBounds ∧
      (0 : Int) ≤ 0 ∧ (0 : Int) ≤ sampleCanvas4.Width ∧
      (0 : Int) ≤ 0 ∧ (0 : Int) ≤ sampleCanvas4.Height := by
  refine ⟨?_, by decide, by decide, by decide, by decide⟩
  rfl

/-- C8 (amended): `SubCanvas` accepts its two corner points in either
order — reversing them yields the identical result — and, for corners
spanning a rectangle of positive width and height on a valid parent, the
strict configuration raises OutOfBounds exactly when the sorted
rectangle is not contained in the parent's extent.  (A degenerate
zero-extent rectangle can additionally raise even when contained, because
the second bounds check probes the inclusive corner `(x1-1, y1-1)`.) -/
theorem C8_subcanvas_sorting (strict : Bool) (c : Canvas) (x0 y0 x1 y1 : Int) :
    c.SubCanvas strict x0 y0 x1 y1 = c.SubCanvas strict x1 y1 x0 y0 ∧
      (c.Valid → min x0 x1 < max x0 x1 → min y0 y1 < max y0 y1 →
        ((∃ c', c.SubCanvas true x0 y0 x1 y1 = .ok c') ↔
          (0 ≤ min x0 x1 ∧ max x0 x1 ≤ c.Width ∧
            0 ≤ min y0 y1 ∧ max y0 y1 ≤ c.Height))) := by
  constructor
  · rw [SubCanvas_eq, SubCanvas_eq]
    rw [min_comm x0 x1, min_comm y0 y1, max_comm x0 x1, max_comm y0 y1]
  · rintro ⟨hptr, hw, hh, hs⟩ hx hy
    rw [SubCanvas_eq]
    constructor
    · rintro ⟨c', hc'⟩
      by_cases h1 : c.IsWithinBounds (min x0 x1) (min y0 y1) = true
      · by_cases h2 : c.IsWithinBounds (max x0 x1 - 1) (max y0 y1 - 1) = true
        · rw [IsWithinBounds_iff] at h1 h2
          omega
        · rw [CheckBounds_ok_of_within _ _ _ h1,
              CheckBounds_error_of_not_within _ _ _ h2, ok_bind, error_bind] at hc'
          exact absurd hc' (by simp)
      · rw [CheckBounds_error_of_not_within _ _ _ h1, error_bind] at hc'
        exact absurd hc' (by simp)
    · rintro ⟨ha, hb, hc, hd⟩
      have h1 : c.IsWithinBounds (min x0 x1) (min y0 y1) = true := by
        rw [IsWithinBounds_iff]; omega
      have h2 : c.IsWithinBounds (max x0 x1 - 1) (max y0 y1 - 1) = true := by
        rw [IsWithinBounds_iff]; omega
      rw [CheckBounds_ok_of_within _ _ _ h1, CheckBounds_ok_of_within _ _ _ h2,
          ok_bind, ok_bind]
      simp only [MkCanvas]
      rw [if_neg (by simp; omega)]
      exact ⟨_, rfl⟩

/-- Witness for C8 at concrete inputs: reversed corners on the 4×4 sample
canvas, and the exactness of the OutOfBounds condition for the
rectangle with corners `(3,3)` and `(1,1)`. -/
theorem C8_subcanvas_sorting_witness :
    (sampleCanvas4.SubCanvas true 3 3 1 1 = sampleCanvas4.SubCanvas true 1 1 3 3) ∧
      ∃ c', sampleCanvas4.SubCanvas true 3 3 1 1 = .ok c' :=
  ⟨(C8_subcanvas_sorting true sampleCanvas4 3 3 1 1).1,
    ((C8_subcanvas_sorting true sampleCanvas4 3 3 1 1).2
      (by refine ⟨by decide, by decide, by decide, by decide⟩)
      (by decide) (by decide)).mpr
      ⟨by decide, by decide, by decide, by decide⟩⟩

/-! ### Rasterizer (`cherry.hpp` lines 1655-1843)

The Bresenham loops of `LineLow` / `LineHigh` advance a `(y, D)` (resp.
`(x, D)`) state that never depends on the canvas contents, so each loop
is split into the list of visited coordinates (the `...Loop` /
`...Pixels` functions below, carrying the exact iteration count of the
C++ `for` loop as structural fuel) and a fold of `BlendPixel` over that
list. -/

/-- The body of `LineLow`'s loop (lines 1666-1679): visit `(x, y)`, then
step the Bresenham error term `D`. -/
def LineLowLoop (dx dy yi : Int) : Nat → Int → Int → Int → List (Int × Int)
  | 0, _, _, _ => []
  | n + 1, x, y, D =>
      (x, y) ::
        (if D > 0 then LineLowLoop dx dy yi n (x + 1) (y + yi) (D + 2 * (dy - dx))
         else LineLowLoop dx dy yi n (x + 1) y (D + 2 * dy))

/-- `LineLow` (lines 1656-1680): `dx = x1 - x0`, `(dy, yi)` by the sign
of `y1 - y0`, `D = 2*dy - dx`, and the loop `for (x = x0; x <= x1; ++x)`
(which iterates `x1 + 1 - x0` times, or none when `x0 > x1`). -/
def LineLowPixels (x0 y0 x1 y1 : Int) : List (Int × Int) :=
  let dx := x1 - x0
  let p := if y1 - y0 ≥ 0 then (y1 - y0, (1 : Int)) else (y0 - y1, (-1 : Int))
  LineLowLoop dx p.1 p.2 (x1 + 1 - x0).toNat x0 y0 (2 * p.1 - dx)

/-- The body of `LineHigh`'s loop (lines 1696-1706). -/
def LineHighLoop (dy dx xi : Int) : Nat → Int → Int → Int → List (Int × Int)
  | 0, _, _, _ => []
  | n + 1, y, x, D =>
      (x, y) ::
        (if D > 0 then LineHighLoop dy dx xi n (y + 1) (x + xi) (D + 2 * (dx - dy))
         else LineHighLoop dy dx xi n (y + 1) x (D + 2 * dx))

/-- `LineHigh` (lines 1683-1707). -/
def LineHighPixels (x0 y0 x1 y1 : Int) : List (Int × Int) :=
  let p := if x1 - x0 ≥ 0 then (x1 - x0, (1 : Int)) else (x0 - x1, (-1 : Int))
  let dy := y1 - y0
  LineHighLoop dy p.1 p.2 (y1 + 1 - y0).toNat y0 x0 (2 * p.1 - dy)

/-- `Line` (lines 1710-1737): dispatch on shallow (`|Δy| < |Δx|`) versus
steep, normalising the endpoint order so the loop always runs forward. -/
def LinePixels (x0 y0 x1 y1 : Int) : List (Int × Int) :=
  if |y1 - y0| < |x1 - x0| then
    if x0 > x1 then LineLowPixels x1 y1 x0 y0 else LineLowPixels x0 y0 x1 y1
  else
    if y0 > y1 then LineHighPixels x1 y1 x0 y0 else LineHighPixels x0 y0 x1 y1

/-- The canvas-level `Line`: blend every visited coordinate in order. -/
def Line (strict : Bool) (c : Canvas) (x0 y0 x1 y1 : Int) (color : Nat) :
    Except Failure Canvas :=
  (LinePixels x0 y0 x1 y1).foldlM (fun c pt => c.BlendPixel strict pt.1 pt.2 color) c

/-- `Polygon` (lines 1754-1771): connect `vertices[i]` to
`vertices[(i+1) mod n]`; no-op on the empty vertex sequence. -/
def Polygon (strict : Bool) (c : Canvas) (vertices : List (Int × Int))
    (color : Nat) : Except Failure Canvas :=
  if vertices.isEmpty then .ok c
  else
    (List.range vertices.length).foldlM
      (fun c i =>
        let p0 := vertices.getD (i % vertices.length) (0, 0)
        let p1 := vertices.getD ((i + 1) % vertices.length) (0, 0)
        Line strict c p0.1 p0.2 p1.1 p1.2 color)
      c

/-- `std::clamp(v, lo, hi)`; the source only calls it with
`lo = 0 ≤ hi = Height - 1` on non-degenerate canvases (it is C++ UB when
`lo > hi`). -/
def cppClamp (v lo hi : Int) : Int := max lo (min v hi)

/-- One scanline of `FillFlatTriangle` (lines 1796-1801): interpolate
the left/right bounds along the two edges with C++ truncating division,
clamp to the canvas width, and blend the row. -/
def FlatTriangleRow (strict : Bool) (c : Canvas) (x0 y0 x1 y1 x2 y : Int)
    (color : Nat) : Except Failure Canvas :=
  let x_left := x0 + ((y - y0) * (x1 - x0)).tdiv (y1 - y0)
  let x_right := x0 + ((y - y0) * (x2 - x0)).tdiv (y1 - y0)
  (intRange (max 0 x_left) (min c.Width (x_right + 1))).foldlM
    (fun c x => c.BlendPixel strict x y color) c

/-- The scan loop `for (y = ...; y != yEnd; y += dy)` of
`FillFlatTriangle` (lines 1792-1802).  The fuel is the exact iteration
count `|yEnd - y|` of the terminating C++ loop. -/
def FlatTriangleLoop (strict : Bool) (x0 y0 x1 y1 x2 : Int) (color : Nat)
    (dy yEnd : Int) : Nat → Canvas → Int → Except Failure Canvas
  | 0, c, _ => .ok c
  | n + 1, c, y =>
      if y = yEnd then .ok c
      else do
        let c' ← FlatTriangleRow strict c x0 y0 x1 y1 x2 y color
        FlatTriangleLoop strict x0 y0 x1 y1 x2 color dy yEnd n c' (y + dy)

/-- `FillFlatTriangle` (lines 1774-1804): early return on zero height,
else order `x1 ≤ x2` and scan from `clamp(y0)` towards
`clamp(y1 + dy)`. -/
def FillFlatTriangle (strict : Bool) (c : Canvas) (x0 y0 x1 y1 x2 : Int)
    (color : Nat) : Except Failure Canvas :=
  if y1 = y0 then .ok c
  else
    let dy : Int := if y1 > y0 then 1 else -1
    let q := if x2 < x1 then (x2, x1) else (x1, x2)
    let yStart := cppClamp y0 0 (c.Height - 1)
    let yEnd := cppClamp (y1 + dy) 0 (c.Height - 1)
    FlatTriangleLoop strict x0 y0 q.1 y1 q.2 color dy yEnd
      (if dy = 1 then (yEnd - yStart).toNat else (yStart - yEnd).toNat) c yStart

/-- `FillTriangle` (lines 1807-1842): sort the vertices by ascending
`y`; fill directly if the bottom edge is flat, else split at the
interpolated intermediate vertex. -/
def FillTriangle (strict : Bool) (c : Canvas) (x0 y0 x1 y1 x2 y2 : Int)
    (color : Nat) : Except Failure Canvas :=
  let s1 := if y0 > y1 then (x1, y1, x0, y0) else (x0, y0, x1, y1)
  let x0 := s1.1; let y0 := s1.2.1; let x1 := s1.2.2.1; let y1 := s1.2.2.2
  let s2 := if y0 > y2 then (x2, y2, x0, y0) else (x0, y0, x2, y2)
  let x0 := s2.1; let y0 := s2.2.1; let x2 := s2.2.2.1; let y2 := s2.2.2.2
  let s3 := if y1 > y2 then (x2, y2, x1, y1) else (x1, y1, x2, y2)
  let x1 := s3.1; let y1 := s3.2.1; let x2 := s3.2.2.1; let y2 := s3.2.2.2
  if y1 = y2 then FillFlatTriangle strict c x0 y0 x1 y1 x2 color
  else
    let x_intermediate := x0 + ((y1 - y0) * (x2 - x0)).tdiv (y2 - y0)
    do
      let c' ← FillFlatTriangle strict c x0 y0 x1 y1 x_intermediate color
      FillFlatTriangle strict c' x2 y2 x1 (y1 + 1) x_intermediate color

/-! ### C7: line endpoint symmetry -/

theorem LinePixels_swap (x0 y0 x1 y1 : Int) :
    LinePixels x0 y0 x1 y1 = LinePixels x1 y1 x0 y0 := by
  unfold LinePixels
  rw [abs_sub_comm y0 y1, abs_sub_comm x0 x1]
  by_cases hb : |y1 - y0| < |x1 - x0|
  · rw [if_pos hb, if_pos hb]
    rcases lt_trichotomy x0 x1 with hx | hx | hx
    · rw [if_neg (show ¬x0 > x1 by omega), if_pos (show x1 > x0 from hx)]
    · exfalso
      have hnn : (0 : ℤ) ≤ |y1 - y0| := abs_nonneg _
      rw [hx, sub_self, abs_zero] at hb
      omega
    · rw [if_pos (show x0 > x1 from hx), if_neg (show ¬x1 > x0 by omega)]
  · rw [if_neg hb, if_neg hb]
    rcases lt_trichotomy y0 y1 with hy | hy | hy
    · rw [if_neg (show ¬y0 > y1 by omega), if_pos (show y1 > y0 from hy)]
    · have hxx : x1 = x0 := by
        rw [hy, sub_self, abs_zero] at hb
        have h0 : |x1 - x0| ≤ 0 := not_lt.mp hb
        have h1 : (0 : ℤ) ≤ |x1 - x0| := abs_nonneg _
        have h2 := abs_eq_zero.mp (le_antisymm h0 h1)
        omega
      rw [if_neg (show ¬y0 > y1 by omega), if_neg (show ¬y1 > y0 by omega),
          hy, hxx]
    · rw [if_pos (show y0 > y1 from hy), if_neg (show ¬y1 > y0 by omega)]

/-- C7: `Line(p0, p1, c)` and `Line(p1, p0, c)` blend exactly the same
set of pixel coordinates — in fact the very same sequence of
`BlendPixel` calls, because the dispatch in `Line` normalises the
endpoint order before either Bresenham loop runs. -/
theorem C7_line_endpoint_symmetry (x0 y0 x1 y1 : Int) (pt : Int × Int) :
    pt ∈ LinePixels x0 y0 x1 y1 ↔ pt ∈ LinePixels x1 y1 x0 y0 := by
  rw [LinePixels_swap]

/-! ### C9: degenerate triangles draw nothing and never fail -/

/-- C9: a triangle whose three vertices share one `y` (in particular a
triangle with all three vertices coincident) draws nothing — the canvas
is returned unchanged — and raises no error in either bounds-checking
configuration: after sorting, the flat-bottom case fires and
`FillFlatTriangle` returns before touching any pixel because
`y1 == y0`. -/
theorem C9_fill_triangle_degenerate (strict : Bool) (c : Canvas)
    (x0 x1 x2 y : Int) (color : Nat) :
    FillTriangle strict c x0 y x1 y x2 y color = .ok c := by
  simp [FillTriangle, FillFlatTriangle]

/-! ### Transform (`cherry.hpp` lines 1524-1652)

`Rotate` computes `sin = std::sin(radians)` and `cos = std::cos(radians)`
in IEEE double precision and then only combines them linearly with
integer coordinates.  The embedding takes the two trigonometric values as
exact rationals; the claim under verification instantiates them at
`radians = 0`, where IEEE evaluation is exact (`sin 0 = 0`, `cos 0 = 1`,
and products/sums with integers up to canvas sizes are exact in
double). -/

/-- `std::lround`: round half away from zero. -/
def lround (q : ℚ) : Int := if 0 ≤ q then ⌊q + 1 / 2⌋ else -⌊-q + 1 / 2⌋

/-- `ApplyRotationX` (lines 1526-1532). -/
def ApplyRotationX (x y : Int) (sin cos : ℚ) : Int :=
  lround (cos * x + sin * y)

/-- `ApplyRotationY` (lines 1535-1541). -/
def ApplyRotationY (x y : Int) (sin cos : ℚ) : Int :=
  lround (-sin * x + cos * y)

/-- `ApplyRotation` (lines 1545-1552). -/
def ApplyRotation (x y : Int) (sin cos : ℚ) : Int × Int :=
  (ApplyRotationX x y sin cos, ApplyRotationY x y sin cos)

/-- `transform::Copy` (lines 1556-1598): nearest-neighbour resample of
`src` into the destination rectangle with auto-sorted corners, mirroring
on reversed corner order, destination clipped to `dst`'s bounds. -/
def Copy (strict : Bool) (src dst : Canvas) (left top right bottom : Int) :
    Except Failure Canvas :=
  if src.Empty then .ok dst
  else
    let target_width := |left - right|
    let target_height := |top - bottom|
    let mirrored_x := left > right
    let mirrored_y := top > bottom
    let s := SortTopLeft left top right bottom
    let left := s.1; let top := s.2.1; let right := s.2.2.1; let bottom := s.2.2.2
    let dst_start_y := max top 0
    let dst_end_y := min bottom dst.Height
    let dst_start_x := max left 0
    let dst_end_x := min right dst.Width
    (intRange dst_start_y dst_end_y).foldlM
      (fun d dst_y =>
        let src_y0 := ((dst_y - top) * src.Height).tdiv target_height
        let src_y := if mirrored_y then src.Height - 1 - src_y0 else src_y0
        (intRange dst_start_x dst_end_x).foldlM
          (fun d dst_x =>
            let src_x0 := ((dst_x - left) * src.Width).tdiv target_width
            let src_x := if mirrored_x then src.Width - 1 - src_x0 else src_x0
            do
              let p ← src.Pixel strict src_x src_y
              d.BlendPixel strict dst_x dst_y p)
          d)
      dst

/-- `transform::Rotate` (lines 1601-1651): bound the destination box by
rotating the four corners of the source rectangle about its origin,
iterate the clipped box, inverse-rotate each destination pixel back into
source space, and blend either the sampled source pixel or the fully
transparent sentinel `CombineRGBA(0xFF, 0xFF, 0xFF, 0x00)`. -/
def Rotate (strict : Bool) (src dst : Canvas)
    (src_origin_x src_origin_y dst_origin_x dst_origin_y : Int)
    (sin cos : ℚ) : Except Failure Canvas :=
  let src_left := -src_origin_x
  let src_top := -src_origin_y
  let src_right := src_left + src.Width
  let src_bottom := src_top + src.Height
  let a := ApplyRotation src_left src_top sin cos
  let b := ApplyRotation src_right src_top sin cos
  let c := ApplyRotation src_right src_bottom sin cos
  let d := ApplyRotation src_left src_bottom sin cos
  let min_x := min (min (min a.1 b.1) c.1) d.1 + dst_origin_x
  let max_x := max (max (max a.1 b.1) c.1) d.1 + dst_origin_x
  let min_y := min (min (min a.2 b.2) c.2) d.2 + dst_origin_y
  let max_y := max (max (max a.2 b.2) c.2) d.2 + dst_origin_y
  let start_y := max min_y 0
  let end_y := min max_y dst.Height
  let start_x := max min_x 0
  let end_x := min max_x dst.Width
  (intRange start_y end_y).foldlM
    (fun dcan y2 =>
      (intRange start_x end_x).foldlM
        (fun dcan x2 =>
          let r := ApplyRotation (x2 - dst_origin_x) (y2 - dst_origin_y) (-sin) cos
          let x1 := r.1 + src_origin_x
          let y1 := r.2 + src_origin_y
          do
            let p ← if src.IsWithinBounds x1 y1 then src.Pixel strict x1 y1
                    else pure (CombineRGBA 0xFF 0xFF 0xFF 0x00)
            dcan.BlendPixel strict x2 y2 p)
        dcan)
    dst

/-! ### Loop and range lemmas -/

theorem mem_intRange (a lo hi : Int) : a ∈ intRange lo hi ↔ lo ≤ a ∧ a < hi := by
  unfold intRange
  simp only [List.mem_map, List.mem_range]
  constructor
  · rintro ⟨i, hi', rfl⟩
    omega
  · rintro ⟨h1, h2⟩
    exact ⟨(a - lo).toNat, by omega, by omega⟩

theorem intRange_empty (lo hi : Int) (h : hi ≤ lo) : intRange lo hi = [] := by
  unfold intRange
  have h0 : (hi - lo).toNat = 0 := by omega
  rw [h0]
  rfl

theorem foldlM_congr {α β : Type} (L : List α) (f g : β → α → Except Failure β)
    (h : ∀ b a, a ∈ L → f b a = g b a) (init : β) :
    L.foldlM f init = L.foldlM g init := by
  induction L generalizing init with
  | nil => rfl
  | cons a as ih =>
    rw [List.foldlM_cons, List.foldlM_cons, h init a (by simp)]
    cases hg : g init a with
    | error e => rw [error_bind, error_bind]
    | ok b =>
      rw [ok_bind, ok_bind]
      exact ih (fun b a ha => h b a (by simp [ha])) b

theorem foldlM_ok_const {α β : Type} (L : List α) (init : β) :
    L.foldlM (fun b _ => (Except.ok b : Except Failure β)) init = .ok init := by
  induction L generalizing init with
  | nil => rfl
  | cons a as ih => rw [List.foldlM_cons, ok_bind, ih]

/-! ### The rotation at angle zero -/

theorem lround_intCast (n : Int) : lround (n : ℚ) = n := by
  have hhalf : ⌊(1 / 2 : ℚ)⌋ = 0 := by
    rw [Int.floor_eq_iff]
    norm_num
  unfold lround
  by_cases h : (0 : ℚ) ≤ (n : ℚ)
  · rw [if_pos h, Int.floor_int_add, hhalf, add_zero]
  · rw [if_neg h]
    have : -(n : ℚ) = ((-n : ℤ) : ℚ) := by push_cast; ring
    rw [this, Int.floor_int_add, hhalf, add_zero, neg_neg]

theorem ApplyRotation_id (x y : Int) : ApplyRotation x y 0 1 = (x, y) := by
  unfold ApplyRotation ApplyRotationX ApplyRotationY
  norm_num [lround_intCast]

/-- The common normal form of `Copy` at forward unit-sized corners and
`Rotate` at angle zero: blend every in-box destination pixel with the
source pixel translated by `(dox, doy)`. -/
def copyLoopNF (strict : Bool) (src dst : Canvas) (dox doy : Int) :
    Except Failure Canvas :=
  (intRange (max doy 0) (min (doy + src.Height) dst.Height)).foldlM
    (fun d y2 =>
      (intRange (max dox 0) (min (dox + src.Width) dst.Width)).foldlM
        (fun d x2 => do
          let p ← src.Pixel strict (x2 - dox) (y2 - doy)
          d.BlendPixel strict x2 y2 p)
        d)
    dst

theorem copyLoopNF_empty (strict : Bool) (src dst : Canvas) (dox doy : Int)
    (h : src.Width = 0 ∨ src.Height = 0) :
    copyLoopNF strict src dst dox doy = .ok dst := by
  rcases h with h | h
  · unfold copyLoopNF
    have hx : intRange (max dox 0) (min (dox + src.Width) dst.Width) = [] :=
      intRange_empty _ _ (by omega)
    rw [hx]
    rw [foldlM_congr _ _ (fun b _ => .ok b) (fun b a _ => List.foldlM_nil _ _) dst]
    exact foldlM_ok_const _ dst
  · unfold copyLoopNF
    rw [intRange_empty (max doy 0) (min (doy + src.Height) dst.Height) (by omega),
        List.foldlM_nil]
    rfl

theorem Rotate_zero_eq_NF (strict : Bool) (src dst : Canvas) (dox doy : Int)
    (hW : 0 ≤ src.Width) (hH : 0 ≤ src.Height) :
    Rotate strict src dst 0 0 dox doy 0 1 = copyLoopNF strict src dst dox doy := by
  unfold Rotate copyLoopNF
  simp only [neg_zero, zero_add, add_zero, ApplyRotation_id]
  have ex1 : (0 ⊓ src.Width ⊓ src.Width ⊓ 0 + dox) ⊔ 0 = dox ⊔ 0 := by omega
  have ex2 : (0 ⊔ src.Width ⊔ src.Width ⊔ 0 + dox) ⊓ dst.Width
      = (dox + src.Width) ⊓ dst.Width := by omega
  have ey1 : (0 ⊓ 0 ⊓ src.Height ⊓ src.Height + doy) ⊔ 0 = doy ⊔ 0 := by omega
  have ey2 : (0 ⊔ 0 ⊔ src.Height ⊔ src.Height + doy) ⊓ dst.Height
      = (doy + src.Height) ⊓ dst.Height := by omega
  rw [ex1, ex2, ey1, ey2]
  apply foldlM_congr
  intro d y2 hy2
  apply foldlM_congr
  intro d2 x2 hx2
  have hin : src.IsWithinBounds (x2 - dox) (y2 - doy) = true := by
    rw [IsWithinBounds_iff]
    rw [mem_intRange] at hx2 hy2
    omega
  rw [if_pos hin]

theorem Copy_eq_NF (strict : Bool) (src dst : Canvas) (dox doy : Int)
    (hW : 0 < src.Width) (hH : 0 < src.Height) :
    Copy strict src dst dox doy (dox + src.Width) (doy + src.Height)
      = copyLoopNF strict src dst dox doy := by
  have hne : src.Empty = false := by
    simp [Canvas.Empty]
    omega
  unfold Copy copyLoopNF
  rw [hne]
  simp only [Bool.false_eq_true, if_false, SortTopLeft_eq]
  have habsx : |dox - (dox + src.Width)| = src.Width := by
    rw [show dox - (dox + src.Width) = -src.Width by ring, abs_neg,
        abs_of_nonneg hW.le]
  have habsy : |doy - (doy + src.Height)| = src.Height := by
    rw [show doy - (doy + src.Height) = -src.Height by ring, abs_neg,
        abs_of_nonneg hH.le]
  have hminx : dox ⊓ (dox + src.Width) = dox := by omega
  have hminy : doy ⊓ (doy + src.Height) = doy := by omega
  have hmaxx : dox ⊔ (dox + src.Width) = dox + src.Width := by omega
  have hmaxy : doy ⊔ (doy + src.Height) = doy + src.Height := by omega
  rw [habsx, habsy, hminx, hminy, hmaxx, hmaxy]
  apply foldlM_congr
  intro d dst_y hy
  apply foldlM_congr
  intro d2 dst_x hx
  rw [if_neg (show ¬dox > dox + src.Width by omega),
      if_neg (show ¬doy > doy + src.Height by omega),
      Int.mul_tdiv_cancel _ hW.ne', Int.mul_tdiv_cancel _ hH.ne']

/-- C5: the general inverse-mapping `Rotate` invoked with rotation 0
(IEEE gives exactly `sin = 0`, `cos = 1`) and source origin `(0,0)`
produces output identical to `Copy` placing the source rectangle at the
same destination origin — the formula specialises to a translated
identity copy (the source `Rotate` has no scale parameters, so unit
scale is implicit). -/
theorem C5_rotate_zero_is_copy (strict : Bool) (src dst : Canvas)
    (dox doy : Int) (hsrc : src.Valid) :
    Rotate strict src dst 0 0 dox doy 0 1 =
      Copy strict src dst dox doy (dox + src.Width) (doy + src.Height) := by
  obtain ⟨-, hW, hH, -⟩ := hsrc
  by_cases hE : src.Width = 0 ∨ src.Height = 0
  · have hemp : src.Empty = true := by
      unfold Canvas.Empty
      rcases hE with h | h <;> simp [h]
    rw [Rotate_zero_eq_NF strict src dst dox doy hW hH,
        copyLoopNF_empty strict src dst dox doy hE]
    unfold Copy
    rw [hemp]
    rfl
  · push_neg at hE
    rw [Rotate_zero_eq_NF strict src dst dox doy hW hH,
        Copy_eq_NF strict src dst dox doy (by omega) (by omega)]

/-- A concrete 2×2 source canvas with distinguishable contents. -/
def srcSample2 : Canvas := ⟨fun i => i + 3, 0, 2, 2, 2, PixelBlendMode.OVERWRITE⟩

/-- A concrete 2×2 zeroed destination canvas in Overwrite mode. -/
def dstSample2 : Canvas := ⟨fun _ => 0, 0, 2, 2, 2, PixelBlendMode.OVERWRITE⟩

/-- Witness for C5 at a concrete input. -/
theorem C5_rotate_zero_is_copy_witness :
    Rotate false srcSample2 dstSample2 0 0 1 1 0 1 =
      Copy false srcSample2 dstSample2 1 1 (1 + srcSample2.Width)
        (1 + srcSample2.Height) :=
  C5_rotate_zero_is_copy false srcSample2 dstSample2 1 1
    ⟨by decide, by decide, by decide, by decide⟩

/-! ### C6: same-size Copy under Overwrite reproduces the source -/

theorem Pixel_ok (strict : Bool) (c : Canvas) (x y : Int)
    (h : c.IsWithinBounds x y = true) :
    c.Pixel strict x y = .ok (c.ReadPix x y) := by
  unfold Canvas.Pixel
  rw [CheckBounds_ok_of_within c x y h]
  rfl

theorem BlendPixel_overwrite (strict : Bool) (c : Canvas) (x y : Int) (p : Nat)
    (hm : c.blend_mode = .OVERWRITE) (h : c.IsWithinBounds x y = true) :
    c.BlendPixel strict x y p = .ok (c.WritePix x y p) := by
  simp [Canvas.BlendPixel, Canvas.OverwritePixel,
    CheckBounds_ok_of_within c x y h, hm, ok_bind]

theorem WritePix_ptr (c : Canvas) (x y : Int) (p : Nat) :
    (c.WritePix x y p).ptr = c.ptr := rfl

theorem WritePix_Width (c : Canvas) (x y : Int) (p : Nat) :
    (c.WritePix x y p).Width = c.Width := rfl

theorem WritePix_Height (c : Canvas) (x y : Int) (p : Nat) :
    (c.WritePix x y p).Height = c.Height := rfl

theorem WritePix_Stride (c : Canvas) (x y : Int) (p : Nat) :
    (c.WritePix x y p).Stride = c.Stride := rfl

theorem WritePix_mode (c : Canvas) (x y : Int) (p : Nat) :
    (c.WritePix x y p).blend_mode = c.blend_mode := rfl

theorem ReadPix_WritePix_self (c : Canvas) (x y : Int) (p : Nat) :
    (c.WritePix x y p).ReadPix x y = p := by
  unfold Canvas.ReadPix Canvas.WritePix Canvas.addr
  simp

theorem ReadPix_WritePix_ne (c : Canvas) (x y : Int) (p : Nat) (x' y' : Int)
    (h : (c.addr x y).toNat ≠ (c.addr x' y').toNat) :
    (c.WritePix x y p).ReadPix x' y' = c.ReadPix x' y' := by
  unfold Canvas.ReadPix Canvas.WritePix Canvas.addr
  simp only []
  exact Function.update_noteq (Ne.symm h) _ _

/-- On a valid canvas, the buffer address determines the in-bounds
coordinate: the indexing `ptr + Stride * y + x` is injective when
`0 ≤ x < Width ≤ Stride`. -/
theorem addr_toNat_inj (c : Canvas) (hc : c.Valid) (x y x' y' : Int)
    (hx0 : 0 ≤ x) (hx1 : x < c.Width) (hy0 : 0 ≤ y) (hy1 : y < c.Height)
    (hx0' : 0 ≤ x') (hx1' : x' < c.Width) (hy0' : 0 ≤ y') (hy1' : y' < c.Height)
    (h : (c.addr x y).toNat = (c.addr x' y').toNat) : x = x' ∧ y = y' := by
  obtain ⟨hptr, hw, hh, hs⟩ := hc
  unfold Canvas.addr at h
  have hS : 0 ≤ c.Stride := by omega
  have h1 : 0 ≤ c.Stride * y := mul_nonneg hS hy0
  have h1' : 0 ≤ c.Stride * y' := mul_nonneg hS hy0'
  have heq : c.ptr + c.Stride * y + x = c.ptr + c.Stride * y' + x' := by omega
  have hd : c.Stride * (y' - y) = c.Stride * y' - c.Stride * y := by ring
  have hd' : c.Stride * (y - y') = c.Stride * y - c.Stride * y' := by ring
  rcases lt_trichotomy y y' with hlt | heqy | hgt
  · exfalso
    have h2 : c.Stride * 1 ≤ c.Stride * (y' - y) :=
      mul_le_mul_of_nonneg_left (by omega) hS
    omega
  · subst heqy
    exact ⟨by omega, rfl⟩
  · exfalso
    have h2 : c.Stride * 1 ≤ c.Stride * (y - y') :=
      mul_le_mul_of_nonneg_left (by omega) hS
    omega

/-- Reading back after a fold of `WritePix`es whose addresses can only
collide with `(x, y)` at `(x, y)` itself: the last write wins. -/
theorem foldl_WritePix_ReadPix (pts : List (Int × Int)) (f : Int → Int → Nat)
    (x y : Int) (c0 : Canvas)
    (hinj : ∀ q ∈ pts, (c0.addr q.1 q.2).toNat = (c0.addr x y).toNat → q = (x, y)) :
    (pts.foldl (fun d q => d.WritePix q.1 q.2 (f q.1 q.2)) c0).ReadPix x y
      = if (x, y) ∈ pts then f x y else c0.ReadPix x y := by
  induction pts generalizing c0 with
  | nil => simp
  | cons q qs ih =>
    rw [List.foldl_cons]
    rw [ih (c0.WritePix q.1 q.2 (f q.1 q.2))
      (fun q' hq' h => hinj q' (List.mem_cons_of_mem _ hq') h)]
    by_cases hq : q = (x, y)
    · by_cases hmem : (x, y) ∈ qs
      · rw [if_pos hmem, if_pos (by simp [hmem])]
      · rw [if_neg hmem, if_pos (by simp [hq]), hq]
        exact ReadPix_WritePix_self c0 x y (f x y)
    · have hne : (c0.addr q.1 q.2).toNat ≠ (c0.addr x y).toNat :=
        fun h => hq (hinj q (List.mem_cons_self _ _) h)
      by_cases hmem : (x, y) ∈ qs
      · rw [if_pos hmem, if_pos (by simp [hmem])]
      · rw [if_neg hmem, if_neg (by
          simp only [List.mem_cons]
          push_neg
          exact ⟨fun h => hq h.symm, hmem⟩)]
        exact ReadPix_WritePix_ne c0 q.1 q.2 (f q.1 q.2) x y hne

/-- A monadic fold whose every step succeeds and preserves an invariant
is the `ok` of the corresponding pure fold. -/
theorem foldlM_eq_ok_foldl {α : Type} (L : List α)
    (fM : Canvas → α → Except Failure Canvas) (f : Canvas → α → Canvas)
    (P : Canvas → Prop)
    (hstep : ∀ d a, a ∈ L → P d → fM d a = .ok (f d a))
    (hpres : ∀ d a, P d → P (f d a)) (d0 : Canvas) (hP : P d0) :
    L.foldlM fM d0 = .ok (L.foldl f d0) := by
  induction L generalizing d0 with
  | nil => rfl
  | cons a as ih =>
    rw [List.foldlM_cons, hstep d0 a (by simp) hP, ok_bind, List.foldl_cons]
    exact ih (fun d a ha hd => hstep d a (by simp [ha]) hd) (f d0 a)
      (hpres d0 a hP)

theorem foldl_pres {α : Type} (L : List α) (f : Canvas → α → Canvas)
    (P : Canvas → Prop) (hpres : ∀ d a, P d → P (f d a)) (d0 : Canvas)
    (hP : P d0) : P (L.foldl f d0) := by
  induction L generalizing d0 with
  | nil => exact hP
  | cons a as ih => exact ih (f d0 a) (hpres d0 a hP)

/-- Nested pure folds over a grid flatten to one fold over the product
list (row-major). -/
theorem foldl_foldl_eq_foldl_grid (ys xs : List Int)
    (g : Canvas → Int → Int → Canvas) (d0 : Canvas) :
    ys.foldl (fun d y => xs.foldl (fun d x => g d x y) d) d0
      = (ys.flatMap (fun y => xs.map (fun x => (x, y)))).foldl
          (fun d q => g d q.1 q.2) d0 := by
  induction ys generalizing d0 with
  | nil => rfl
  | cons y ys ih =>
    rw [List.foldl_cons, List.flatMap_cons, List.foldl_append, ih, List.foldl_map]

theorem mem_grid (ys xs : List Int) (x y : Int) :
    (x, y) ∈ ys.flatMap (fun y => xs.map (fun x => (x, y))) ↔
      x ∈ xs ∧ y ∈ ys := by
  simp only [List.mem_flatMap, List.mem_map, Prod.mk.injEq]
  constructor
  · rintro ⟨y', hy', x', hx', rfl, rfl⟩
    exact ⟨hx', hy'⟩
  · rintro ⟨hx, hy⟩
    exact ⟨y, hy, x, hx, rfl, rfl⟩

theorem copyLoopNF_overwrite_ok (strict : Bool) (src dst : Canvas)
    (dox doy : Int) (hmode : dst.blend_mode = .OVERWRITE) :
    copyLoopNF strict src dst dox doy
      = .ok ((intRange (max doy 0) (min (doy + src.Height) dst.Height)).foldl
          (fun d y2 =>
            (intRange (max dox 0) (min (dox + src.Width) dst.Width)).foldl
              (fun d x2 => d.WritePix x2 y2 (src.ReadPix (x2 - dox) (y2 - doy)))
              d)
          dst) := by
  unfold copyLoopNF
  apply foldlM_eq_ok_foldl _ _ _
    (fun d => d.blend_mode = .OVERWRITE ∧ d.Width = dst.Width ∧
      d.Height = dst.Height)
  · intro d y2 hy2 hP
    apply foldlM_eq_ok_foldl _ _ _
      (fun d => d.blend_mode = .OVERWRITE ∧ d.Width = dst.Width ∧
        d.Height = dst.Height)
    · intro d2 x2 hx2 hP2
      rw [mem_intRange] at hx2 hy2
      have hsrc_in : src.IsWithinBounds (x2 - dox) (y2 - doy) = true := by
        rw [IsWithinBounds_iff]
        omega
      have hdst_in : d2.IsWithinBounds x2 y2 = true := by
        rw [IsWithinBounds_iff, hP2.2.1, hP2.2.2]
        omega
      rw [Pixel_ok strict src _ _ hsrc_in, ok_bind,
          BlendPixel_overwrite strict d2 x2 y2 _ hP2.1 hdst_in]
    · intro d2 x2 hP2
      exact hP2
    · exact hP
  · intro d y2 hP
    exact foldl_pres (intRange (max dox 0) (min (dox + src.Width) dst.Width))
      (fun d x2 => d.WritePix x2 y2 (src.ReadPix (x2 - dox) (y2 - doy)))
      (fun d => d.blend_mode = .OVERWRITE ∧ d.Width = dst.Width ∧
        d.Height = dst.Height)
      (fun d2 x2 h => h) d hP
  · exact ⟨hmode, rfl, rfl⟩

/-- C6: `Copy(src, dst, 0, 0, src.Width, src.Height)` onto a same-sized
destination in Overwrite mode succeeds and makes every in-bounds pixel of
the destination equal to the corresponding source pixel (the
nearest-neighbour index `x * srcW / dstW` reduces to the identity when
the extents match). -/
theorem C6_copy_identity (strict : Bool) (src dst : Canvas)
    (hdst : dst.Valid) (hne : src.Empty = false)
    (hw : dst.Width = src.Width) (hh : dst.Height = src.Height)
    (hmode : dst.blend_mode = .OVERWRITE) :
    ∃ dst', Copy strict src dst 0 0 src.Width src.Height = .ok dst' ∧
      ∀ x y, 0 ≤ x → x < dst.Width → 0 ≤ y → y < dst.Height →
        dst'.ReadPix x y = src.ReadPix x y := by
  obtain ⟨hptr, hw0, hh0, hs0⟩ := hdst
  have hWH : src.Width ≠ 0 ∧ src.Height ≠ 0 := by
    unfold Canvas.Empty at hne
    simp only [Bool.or_eq_false_iff, beq_eq_false_iff_ne] at hne
    exact hne
  have hW : 0 < src.Width := by omega
  have hH : 0 < src.Height := by omega
  have hcopy := Copy_eq_NF strict src dst 0 0 hW hH
  rw [zero_add, zero_add] at hcopy
  rw [hcopy, copyLoopNF_overwrite_ok strict src dst 0 0 hmode]
  refine ⟨_, rfl, ?_⟩
  intro x y hx0 hx1 hy0 hy1
  rw [foldl_foldl_eq_foldl_grid]
  rw [foldl_WritePix_ReadPix _ (fun a b => src.ReadPix (a - 0) (b - 0)) x y dst
    ?hinj]
  · rw [if_pos (by
      rw [mem_grid, mem_intRange, mem_intRange]
      omega)]
    simp
  case hinj =>
    intro q hq heq
    rw [mem_grid, mem_intRange, mem_intRange] at hq
    have hb := addr_toNat_inj dst ⟨hptr, hw0, hh0, hs0⟩ q.1 q.2 x y
      (by omega) (by omega) (by omega) (by omega) hx0 hx1 hy0 hy1 heq
    obtain ⟨e1, e2⟩ := hb
    cases q
    simp_all

/-- Witness for C6 at a concrete input: copying the 2×2 sample source
over the 2×2 zeroed destination. -/
theorem C6_copy_identity_witness :
    ∃ dst', Copy false srcSample2 dstSample2 0 0 srcSample2.Width
        srcSample2.Height = .ok dst' ∧
      ∀ x y, 0 ≤ x → x < dstSample2.Width → 0 ≤ y → y < dstSample2.Height →
        dst'.ReadPix x y = srcSample2.ReadPix x y :=
  C6_copy_identity false srcSample2 dstSample2
    ⟨by decide, by decide, by decide, by decide⟩ rfl rfl rfl rfl

/-! ### C10: operations never change a canvas's geometry -/

/-- The geometry of a canvas view: base pointer, width, height, stride
(the `const` members `Data`, `Width`, `Height`, `Stride` of the source
class, lines 1319-1323). -/
def Geom (c : Canvas) : Int × Int × Int × Int :=
  (c.ptr, c.Width, c.Height, c.Stride)

theorem map_const_of_ok {e : Except Failure Canvas} (c : Canvas)
    (h : ∀ c', e = .ok c' → Geom c' = Geom c) :
    e.map Geom = e.map (fun _ => Geom c) := by
  cases e with
  | error f => rfl
  | ok c' =>
    have := h c' rfl
    simp [Except.map, this]

theorem OverwritePixel_ok_geom (strict : Bool) (c : Canvas) (x y : Int)
    (p : Nat) (c' : Canvas) (h : c.OverwritePixel strict x y p = .ok c') :
    Geom c' = Geom c := by
  unfold Canvas.OverwritePixel at h
  cases hcb : c.CheckBounds strict x y with
  | error e =>
    rw [hcb, error_bind] at h
    exact absurd h (by simp)
  | ok u =>
    rw [hcb, ok_bind] at h
    injection h with h
    rw [← h]
    rfl

theorem BlendPixel_ok_geom (strict : Bool) (c : Canvas) (x y : Int) (p : Nat)
    (c' : Canvas) (h : c.BlendPixel strict x y p = .ok c') :
    Geom c' = Geom c := by
  unfold Canvas.BlendPixel at h
  cases hcb : c.CheckBounds strict x y with
  | error e =>
    rw [hcb, error_bind] at h
    exact absurd h (by simp)
  | ok u =>
    rw [hcb, ok_bind] at h
    cases hm : c.blend_mode with
    | OVERWRITE =>
      rw [hm] at h
      simp only [] at h
      exact OverwritePixel_ok_geom strict c x y p c' h
    | ALPHA_COMPOSITING =>
      rw [hm] at h
      simp only [] at h
      cases hp : c.Pixel strict x y with
      | error e =>
        rw [hp, error_bind] at h
        exact absurd h (by simp)
      | ok bg =>
        rw [hp, ok_bind] at h
        cases hab : AlphaBlend p bg with
        | none =>
          rw [hab] at h
          exact absurd h (by simp)
        | some q =>
          rw [hab] at h
          exact OverwritePixel_ok_geom strict c x y q c' h
    | FAST_ALPHA_COMPOSITING =>
      rw [hm] at h
      simp only [] at h
      cases hp : c.Pixel strict x y with
      | error e =>
        rw [hp, error_bind] at h
        exact absurd h (by simp)
      | ok bg =>
        rw [hp, ok_bind] at h
        exact OverwritePixel_ok_geom strict c x y (FastAlphaBlend p bg) c' h

theorem foldlM_ok_geom {α : Type} (L : List α)
    (fM : Canvas → α → Except Failure Canvas)
    (hstep : ∀ d a c', fM d a = .ok c' → Geom c' = Geom d)
    (d0 c' : Canvas) (h : L.foldlM fM d0 = .ok c') : Geom c' = Geom d0 := by
  induction L generalizing d0 with
  | nil =>
    rw [List.foldlM_nil] at h
    injection h with h
    rw [← h]
  | cons a as ih =>
    rw [List.foldlM_cons] at h
    cases hf : fM d0 a with
    | error e =>
      rw [hf, error_bind] at h
      exact absurd h (by simp)
    | ok d1 =>
      rw [hf, ok_bind] at h
      rw [ih d1 h, hstep d0 a d1 hf]

theorem pixel_bind_BlendPixel_ok_geom (strict : Bool) (d : Canvas)
    (e : Except Failure Nat) (x y : Int) (c' : Canvas)
    (h : (e >>= fun p => d.BlendPixel strict x y p) = .ok c') :
    Geom c' = Geom d := by
  cases e with
  | error f =>
    rw [error_bind] at h
    exact absurd h (by simp)
  | ok p =>
    rw [ok_bind] at h
    exact BlendPixel_ok_geom strict d x y p c' h

theorem Fill_ok_geom (strict : Bool) (c : Canvas) (color : Nat) (c' : Canvas)
    (h : c.Fill strict color = .ok c') : Geom c' = Geom c := by
  unfold Canvas.Fill at h
  refine foldlM_ok_geom _ _ (fun d y c' hy => ?_) c c' h
  exact foldlM_ok_geom _ _ (fun d2 x c'' hx =>
    BlendPixel_ok_geom strict d2 x y color c'' hx) d c' hy

theorem Line_ok_geom (strict : Bool) (c : Canvas) (x0 y0 x1 y1 : Int)
    (color : Nat) (c' : Canvas) (h : Line strict c x0 y0 x1 y1 color = .ok c') :
    Geom c' = Geom c := by
  unfold Line at h
  exact foldlM_ok_geom _ _ (fun d pt c'' hpt =>
    BlendPixel_ok_geom strict d pt.1 pt.2 color c'' hpt) c c' h

theorem Polygon_ok_geom (strict : Bool) (c : Canvas) (vs : List (Int × Int))
    (color : Nat) (c' : Canvas) (h : Polygon strict c vs color = .ok c') :
    Geom c' = Geom c := by
  unfold Polygon at h
  by_cases he : vs.isEmpty
  · rw [if_pos he] at h
    injection h with h
    rw [← h]
  · rw [if_neg he] at h
    exact foldlM_ok_geom _ _ (fun d i c'' hi =>
      Line_ok_geom strict d _ _ _ _ color c'' hi) c c' h

theorem FlatTriangleRow_ok_geom (strict : Bool) (c : Canvas)
    (x0 y0 x1 y1 x2 y : Int) (color : Nat) (c' : Canvas)
    (h : FlatTriangleRow strict c x0 y0 x1 y1 x2 y color = .ok c') :
    Geom c' = Geom c := by
  unfold FlatTriangleRow at h
  exact foldlM_ok_geom _ _ (fun d x c'' hx =>
    BlendPixel_ok_geom strict d x y color c'' hx) c c' h

theorem FlatTriangleLoop_ok_geom (strict : Bool) (x0 y0 x1 y1 x2 : Int)
    (color : Nat) (dy yEnd : Int) (fuel : Nat) (c : Canvas) (y : Int)
    (c' : Canvas)
    (h : FlatTriangleLoop strict x0 y0 x1 y1 x2 color dy yEnd fuel c y = .ok c') :
    Geom c' = Geom c := by
  induction fuel generalizing c y with
  | zero =>
    unfold FlatTriangleLoop at h
    injection h with h
    rw [← h]
  | succ n ih =>
    unfold FlatTriangleLoop at h
    by_cases hy : y = yEnd
    · rw [if_pos hy] at h
      injection h with h
      rw [← h]
    · rw [if_neg hy] at h
      cases hr : FlatTriangleRow strict c x0 y0 x1 y1 x2 y color with
      | error e =>
        rw [hr, error_bind] at h
        exact absurd h (by simp)
      | ok c1 =>
        rw [hr, ok_bind] at h
        rw [ih c1 (y + dy) h, FlatTriangleRow_ok_geom strict c _ _ _ _ _ _ color c1 hr]

theorem FillFlatTriangle_ok_geom (strict : Bool) (c : Canvas)
    (x0 y0 x1 y1 x2 : Int) (color : Nat) (c' : Canvas)
    (h : FillFlatTriangle strict c x0 y0 x1 y1 x2 color = .ok c') :
    Geom c' = Geom c := by
  unfold FillFlatTriangle at h
  by_cases hy : y1 = y0
  · rw [if_pos hy] at h
    injection h with h
    rw [← h]
  · rw [if_neg hy] at h
    exact FlatTriangleLoop_ok_geom strict _ _ _ _ _ color _ _ _ c _ c' h

theorem FFT_bind_ok_geom (strict : Bool) (c : Canvas)
    (a1 a2 a3 a4 a5 b1 b2 b3 b4 b5 : Int) (color : Nat) (c' : Canvas)
    (h : (FillFlatTriangle strict c a1 a2 a3 a4 a5 color >>= fun c1 =>
        FillFlatTriangle strict c1 b1 b2 b3 b4 b5 color) = .ok c') :
    Geom c' = Geom c := by
  cases hf : FillFlatTriangle strict c a1 a2 a3 a4 a5 color with
  | error e =>
    rw [hf, error_bind] at h
    exact absurd h (by simp)
  | ok c1 =>
    rw [hf, ok_bind] at h
    rw [FillFlatTriangle_ok_geom strict c1 b1 b2 b3 b4 b5 color c' h,
        FillFlatTriangle_ok_geom strict c a1 a2 a3 a4 a5 color c1 hf]

theorem FillTriangle_ok_geom (strict : Bool) (c : Canvas)
    (x0 y0 x1 y1 x2 y2 : Int) (color : Nat) (c' : Canvas)
    (h : FillTriangle strict c x0 y0 x1 y1 x2 y2 color = .ok c') :
    Geom c' = Geom c := by
  unfold FillTriangle at h
  repeat' (first | split at h | dsimp only [] at h)
  all_goals
    first
      | exact FillFlatTriangle_ok_geom strict c _ _ _ _ _ color c' h
      | exact FFT_bind_ok_geom strict c _ _ _ _ _ _ _ _ _ _ color c' h

theorem Copy_ok_geom (strict : Bool) (src dst : Canvas) (l t r b : Int)
    (c' : Canvas) (h : Copy strict src dst l t r b = .ok c') :
    Geom c' = Geom dst := by
  unfold Copy at h
  by_cases he : src.Empty = true
  · rw [if_pos he] at h
    injection h with h
    rw [← h]
  · rw [if_neg he] at h
    refine foldlM_ok_geom _ _ (fun d y c'' hy => ?_) dst c' h
    refine foldlM_ok_geom _ _ (fun d2 x c3 hx => ?_) d c'' hy
    exact pixel_bind_BlendPixel_ok_geom strict d2 _ x y c3 hx

theorem Rotate_ok_geom (strict : Bool) (src dst : Canvas)
    (sox soy dox doy : Int) (sin cos : ℚ) (c' : Canvas)
    (h : Rotate strict src dst sox soy dox doy sin cos = .ok c') :
    Geom c' = Geom dst := by
  unfold Rotate at h
  refine foldlM_ok_geom _ _ (fun d y c'' hy => ?_) dst c' h
  refine foldlM_ok_geom _ _ (fun d2 x c3 hx => ?_) d c'' hy
  dsimp only [] at hx
  split at hx
  · exact pixel_bind_BlendPixel_ok_geom strict d2 _ x y c3 hx
  · exact pixel_bind_BlendPixel_ok_geom strict d2 _ x y c3 hx

/-- C10: every operation on a constructed canvas — `SetBlendMode`, the
pixel writes, `Fill`, line/polygon/triangle drawing, and the transform
`Copy`/`Rotate` — leaves the view's geometry (`Data` pointer, `Width`,
`Height`, `Stride`) unchanged; only the backing buffer's pixel contents
and the active blend mode ever vary after construction. -/
theorem C10_geometry_invariant (strict : Bool) (c : Canvas)
    (m : PixelBlendMode) (x y x0 y0 x1 y1 xa ya xb yb xc yc : Int)
    (p color : Nat) (vs : List (Int × Int)) (src dst : Canvas)
    (l t r b sox soy dox doy : Int) (sin cos : ℚ) :
    Geom (c.SetBlendMode m) = Geom c ∧
      (c.OverwritePixel strict x y p).map Geom
        = (c.OverwritePixel strict x y p).map (fun _ => Geom c) ∧
      (c.BlendPixel strict x y p).map Geom
        = (c.BlendPixel strict x y p).map (fun _ => Geom c) ∧
      (c.Fill strict color).map Geom
        = (c.Fill strict color).map (fun _ => Geom c) ∧
      (Line strict c x0 y0 x1 y1 color).map Geom
        = (Line strict c x0 y0 x1 y1 color).map (fun _ => Geom c) ∧
      (Polygon strict c vs color).map Geom
        = (Polygon strict c vs color).map (fun _ => Geom c) ∧
      (FillTriangle strict c xa ya xb yb xc yc color).map Geom
        = (FillTriangle strict c xa ya xb yb xc yc color).map (fun _ => Geom c) ∧
      (Copy strict src dst l t r b).map Geom
        = (Copy strict src dst l t r b).map (fun _ => Geom dst) ∧
      (Rotate strict src dst sox soy dox doy sin cos).map Geom
        = (Rotate strict src dst sox soy dox doy sin cos).map
            (fun _ => Geom dst) :=
  ⟨rfl,
    map_const_of_ok c (fun c' h => OverwritePixel_ok_geom strict c x y p c' h),
    map_const_of_ok c (fun c' h => BlendPixel_ok_geom strict c x y p c' h),
    map_const_of_ok c (fun c' h => Fill_ok_geom strict c color c' h),
    map_const_of_ok c (fun c' h => Line_ok_geom strict c x0 y0 x1 y1 color c' h),
    map_const_of_ok c (fun c' h => Polygon_ok_geom strict c vs color c' h),
    map_const_of_ok c
      (fun c' h => FillTriangle_ok_geom strict c xa ya xb yb xc yc color c' h),
    map_const_of_ok dst (fun c' h => Copy_ok_geom strict src dst l t r b c' h),
    map_const_of_ok dst
      (fun c' h => Rotate_ok_geom strict src dst sox soy dox doy sin cos c' h)⟩

end Cherry
